import Mathlib

/-!
Shallow embedding of the home-purchase-analyzer projection engine.

Numbers are modelled as exact rationals (`ℚ`); the JavaScript source uses
IEEE doubles, and every claim below is settled against the exact-arithmetic
semantics of the same formulas.  Loop counters and year/month counts are `ℕ`.
JavaScript `Infinity` sentinels are modelled as `Option` (`none` = "never");
`x?.field || 0` lookups are modelled with `List.getElem?`/`Option.getD`.
-/

namespace HomePurchase

/-! ## Amortization engine (source: calculateMonthlyPayment, generateAmortizationSchedule) -/

/-- Monthly P&I payment via the PMT formula.  Mirrors `calculateMonthlyPayment`:
guard `principal <= 0 || years <= 0` returns 0; zero monthly rate falls back to
straight-line `principal / numPayments`. -/
def calculateMonthlyPayment (principal annualRate : ℚ) (years : ℕ) : ℚ :=
  if principal ≤ 0 ∨ years = 0 then 0
  else
    let monthlyRate := annualRate / 100 / 12
    let numPayments : ℕ := years * 12
    if monthlyRate = 0 then principal / numPayments
    else
      principal * (monthlyRate * (1 + monthlyRate) ^ numPayments) /
        ((1 + monthlyRate) ^ numPayments - 1)

/-- One row of the amortization schedule, as pushed by
`generateAmortizationSchedule`. -/
structure AmortizationRow where
  month : ℕ
  payment : ℚ
  principal : ℚ
  interest : ℚ
  balance : ℚ
deriving Repr, DecidableEq

/-- Loop body of `generateAmortizationSchedule`: `fuel` is the number of
remaining iterations, so `fuel = 0` inside a step marks the final month
(`month === numPayments`), where the balance is forced to exactly 0.
The recorded balance is `Math.max(0, balance)`. -/
def amortAux (monthlyPayment monthlyRate : ℚ) : ℕ → ℕ → ℚ → List AmortizationRow
  | _, 0, _ => []
  | month, fuel + 1, balance =>
    let interestPayment := balance * monthlyRate
    let principalPayment := monthlyPayment - interestPayment
    let newBalance := balance - principalPayment
    let recorded := if fuel = 0 then 0 else newBalance
    { month := month, payment := monthlyPayment, principal := principalPayment,
      interest := interestPayment, balance := max 0 recorded } ::
      amortAux monthlyPayment monthlyRate (month + 1) fuel newBalance

/-- Mirrors `generateAmortizationSchedule(principal, annualRate, years)`. -/
def generateAmortizationSchedule (principal annualRate : ℚ) (years : ℕ) :
    List AmortizationRow :=
  let monthlyRate := annualRate / 100 / 12
  let numPayments : ℕ := years * 12
  let monthlyPayment := calculateMonthlyPayment principal annualRate years
  amortAux monthlyPayment monthlyRate 1 numPayments principal

/-- Raw (unclamped, unforced) loan balance after `j` payments: the value of the
mutable `balance` variable entering iteration `j + 1`. -/
def balAfter (monthlyPayment monthlyRate b : ℚ) : ℕ → ℚ
  | 0 => b
  | j + 1 =>
    let prev := balAfter monthlyPayment monthlyRate b j
    prev - (monthlyPayment - prev * monthlyRate)

theorem amortAux_length (M r : ℚ) (month fuel : ℕ) (b : ℚ) :
    (amortAux M r month fuel b).length = fuel := by
  induction fuel generalizing month b with
  | zero => simp [amortAux]
  | succ n ih => simp [amortAux, ih]

theorem balAfter_step_shift (M r b : ℚ) (j : ℕ) :
    balAfter M r (b - (M - b * r)) j = balAfter M r b (j + 1) := by
  induction j with
  | zero => simp [balAfter]
  | succ n ih => simp only [balAfter, ih]

theorem amortAux_getElem (M r : ℚ) (month fuel k : ℕ) (b : ℚ) (hk : k < fuel) :
    (amortAux M r month fuel b)[k]? =
      some { month := month + k, payment := M,
             principal := M - balAfter M r b k * r,
             interest := balAfter M r b k * r,
             balance := max 0 (if k + 1 = fuel then 0 else balAfter M r b (k + 1)) } := by
  induction k generalizing month fuel b with
  | zero =>
    obtain ⟨f, rfl⟩ : ∃ f, fuel = f + 1 := ⟨fuel - 1, by omega⟩
    rcases eq_or_ne f 0 with rfl | h
    · simp [amortAux, balAfter]
    · have h1 : ¬(0 + 1 = f + 1) := by omega
      simp [amortAux, balAfter, h, h1]
  | succ n ih =>
    obtain ⟨f, rfl⟩ : ∃ f, fuel = f + 1 := ⟨fuel - 1, by omega⟩
    have hn : n < f := by omega
    have hm : month + 1 + n = month + (n + 1) := by omega
    simp only [amortAux, List.getElem?_cons_succ]
    rw [ih (month + 1) f _ hn, balAfter_step_shift, balAfter_step_shift, hm]
    rcases eq_or_ne (n + 1) f with rfl | h
    · simp
    · have h2 : ¬(n + 1 + 1 = f + 1) := by omega
      simp [h, h2]

theorem amortAux_balance_nonneg (M r : ℚ) (month fuel : ℕ) (b : ℚ) :
    ∀ row ∈ amortAux M r month fuel b, 0 ≤ row.balance := by
  induction fuel generalizing month b with
  | zero => simp [amortAux]
  | succ n ih =>
    intro row hrow
    simp only [amortAux, List.mem_cons] at hrow
    rcases hrow with rfl | hrow
    · exact le_max_left 0 _
    · exact ih _ _ row hrow

theorem amortAux_payment_eq (M r : ℚ) (month fuel : ℕ) (b : ℚ) :
    ∀ row ∈ amortAux M r month fuel b, row.payment = M := by
  induction fuel generalizing month b with
  | zero => simp [amortAux]
  | succ n ih =>
    intro row hrow
    simp only [amortAux, List.mem_cons] at hrow
    rcases hrow with rfl | hrow
    · rfl
    · exact ih _ _ row hrow

theorem amortAux_sum_principal (M r : ℚ) (month fuel : ℕ) (b : ℚ) :
    ((amortAux M r month fuel b).map AmortizationRow.principal).sum =
      b - balAfter M r b fuel := by
  induction fuel generalizing month b with
  | zero => simp [amortAux, balAfter]
  | succ n ih =>
    simp only [amortAux, List.map_cons, List.sum_cons]
    rw [ih]
    rw [balAfter_step_shift]
    ring

theorem balAfter_closed_pos (P r : ℚ) (n : ℕ) (hD : (1 + r) ^ n - 1 ≠ 0)
    (j : ℕ) :
    balAfter (P * (r * (1 + r) ^ n) / ((1 + r) ^ n - 1)) r P j =
      P * ((1 + r) ^ n - (1 + r) ^ j) / ((1 + r) ^ n - 1) := by
  induction j with
  | zero =>
    simp only [balAfter, pow_zero]
    field_simp
  | succ j ih =>
    simp only [balAfter, ih, pow_succ]
    field_simp
    ring

theorem balAfter_closed_zero (P : ℚ) (n : ℚ) (j : ℕ) :
    balAfter (P / n) 0 P j = P - j * (P / n) := by
  induction j with
  | zero => simp [balAfter]
  | succ j ih =>
    simp only [balAfter, ih, mul_zero, sub_zero, Nat.cast_succ]
    ring

theorem balAfter_mono_final (P rate : ℚ) (y : ℕ)
    (hP : 0 < P) (hrate : 0 ≤ rate) (hy : y ≠ 0) :
    (∀ j, balAfter (calculateMonthlyPayment P rate y) (rate / 100 / 12) P (j + 1) ≤
        balAfter (calculateMonthlyPayment P rate y) (rate / 100 / 12) P j)
    ∧ balAfter (calculateMonthlyPayment P rate y) (rate / 100 / 12) P (y * 12) = 0 := by
  have hguard : ¬(P ≤ 0 ∨ y = 0) := by push_neg; exact ⟨hP, hy⟩
  rcases eq_or_lt_of_le hrate with hrz | hrpos
  · -- zero-rate straight-line case
    have hr0 : rate / 100 / 12 = 0 := by rw [← hrz]; norm_num
    have hM : calculateMonthlyPayment P rate y = P / (y * 12 : ℕ) := by
      rw [calculateMonthlyPayment, if_neg hguard]
      simp [hr0]
    rw [hM, hr0]
    have hn : ((y * 12 : ℕ) : ℚ) ≠ 0 := by
      simp only [ne_eq, Nat.cast_eq_zero]
      omega
    constructor
    · intro j
      have hpos : 0 < P / ((y * 12 : ℕ) : ℚ) := by
        apply div_pos hP
        have : 0 < y * 12 := by omega
        exact_mod_cast this
      rw [balAfter_closed_zero, balAfter_closed_zero]
      push_cast at hpos ⊢
      nlinarith
    · rw [balAfter_closed_zero]
      field_simp
  · -- positive-rate PMT case
    set r : ℚ := rate / 100 / 12 with hrdef
    have hr : 0 < r := by positivity
    have hone : 1 < 1 + r := by linarith
    have hA : 1 < (1 + r) ^ (y * 12) := by
      apply one_lt_pow₀ hone
      omega
    have hD : (0 : ℚ) < (1 + r) ^ (y * 12) - 1 := by linarith
    have hDne : (1 + r) ^ (y * 12) - 1 ≠ 0 := ne_of_gt hD
    have hrne : r ≠ 0 := ne_of_gt hr
    have hM : calculateMonthlyPayment P rate y =
        P * (r * (1 + r) ^ (y * 12)) / ((1 + r) ^ (y * 12) - 1) := by
      rw [calculateMonthlyPayment, if_neg hguard]
      simp only [← hrdef, if_neg hrne]
    rw [hM]
    constructor
    · intro j
      rw [balAfter_closed_pos P r (y * 12) hDne,
        balAfter_closed_pos P r (y * 12) hDne]
      have hpow : (1 + r) ^ j ≤ (1 + r) ^ (j + 1) := by
        apply pow_le_pow_right₀ (by linarith)
        omega
      have hnum : P * ((1 + r) ^ (y * 12) - (1 + r) ^ (j + 1)) ≤
          P * ((1 + r) ^ (y * 12) - (1 + r) ^ j) := by nlinarith
      exact (div_le_div_iff_of_pos_right hD).mpr hnum
    · rw [balAfter_closed_pos P r (y * 12) hDne]
      simp

/-- C5: for principal > 0, rate ≥ 0, term > 0 the schedule has exactly
termYears×12 rows, every recorded balance is ≥ 0, recorded balances are
non-increasing row to row, the final row's balance is exactly 0, and the
principal components sum to exactly the principal. -/
theorem c5_amortization_invariants (P rate : ℚ) (y : ℕ)
    (hP : 0 < P) (hrate : 0 ≤ rate) (hy : 0 < y) :
    (generateAmortizationSchedule P rate y).length = y * 12
    ∧ (∀ row ∈ generateAmortizationSchedule P rate y, 0 ≤ row.balance)
    ∧ (∀ i rI rJ, (generateAmortizationSchedule P rate y)[i]? = some rI →
        (generateAmortizationSchedule P rate y)[i + 1]? = some rJ →
        rJ.balance ≤ rI.balance)
    ∧ (generateAmortizationSchedule P rate y)[y * 12 - 1]?.map AmortizationRow.balance =
        some 0
    ∧ ((generateAmortizationSchedule P rate y).map AmortizationRow.principal).sum = P := by
  have hyne : y ≠ 0 := by omega
  obtain ⟨hmono, hfinal⟩ := balAfter_mono_final P rate y hP hrate hyne
  set M := calculateMonthlyPayment P rate y with hMdef
  set r : ℚ := rate / 100 / 12 with hrdef
  have hsched : generateAmortizationSchedule P rate y = amortAux M r 1 (y * 12) P := rfl
  refine ⟨?_, ?_, ?_, ?_, ?_⟩
  · rw [hsched, amortAux_length]
  · rw [hsched]; exact amortAux_balance_nonneg M r 1 (y * 12) P
  · intro i rI rJ hI hJ
    have hlen : (generateAmortizationSchedule P rate y).length = y * 12 := by
      rw [hsched, amortAux_length]
    have hiJ : i + 1 < y * 12 := by
      by_contra hcon
      rw [hsched] at hJ
      rw [List.getElem?_eq_none (by rw [amortAux_length]; omega)] at hJ
      exact Option.noConfusion hJ
    have hiI : i < y * 12 := by omega
    rw [hsched, amortAux_getElem M r 1 (y * 12) i P hiI] at hI
    rw [hsched, amortAux_getElem M r 1 (y * 12) (i + 1) P hiJ] at hJ
    have hrI := Option.some.inj hI
    have hrJ := Option.some.inj hJ
    have hIbal : rI.balance = max 0 (balAfter M r P (i + 1)) := by
      rw [← hrI]
      have : ¬(i + 1 = y * 12) := by omega
      simp [this]
    rcases eq_or_ne (i + 1 + 1) (y * 12) with hlast | hlast
    · have : rJ.balance = 0 := by rw [← hrJ]; simp [hlast]
      rw [this, hIbal]
      exact le_max_left 0 _
    · have : rJ.balance = max 0 (balAfter M r P (i + 1 + 1)) := by
        rw [← hrJ]; simp [hlast]
      rw [this, hIbal]
      exact max_le_max (le_refl 0) (hmono (i + 1))
  · have hlt : y * 12 - 1 < y * 12 := by omega
    rw [hsched, amortAux_getElem M r 1 (y * 12) (y * 12 - 1) P hlt]
    have : y * 12 - 1 + 1 = y * 12 := by omega
    simp [this]
  · rw [hsched, amortAux_sum_principal, hfinal, sub_zero]

/-- C5 witness: the schedule for principal 1200, rate 0, term 1 year satisfies
the invariants; here the principal components sum to exactly 1200. -/
theorem c5_witness :
    ((generateAmortizationSchedule 1200 0 1).map AmortizationRow.principal).sum = 1200 :=
  (c5_amortization_invariants 1200 0 1 (by decide) (by decide) (by decide)).2.2.2.2

/-- C7 counterexample: at principal 0 (≤ 0), rate 5, term 1 year the monthly
payment is 0 as claimed, but the schedule is not empty — the generator has no
principal guard and still produces termYears×12 = 12 rows. -/
theorem c7_counterexample :
    calculateMonthlyPayment 0 5 1 = 0
    ∧ generateAmortizationSchedule 0 5 1 ≠ []
    ∧ (generateAmortizationSchedule 0 5 1).length = 12 := by
  have hlen : (generateAmortizationSchedule 0 5 1).length = 12 := by decide
  refine ⟨by decide, ?_, hlen⟩
  intro h
  rw [h] at hlen
  simp at hlen

/-- C7 amended: the monthly payment is 0 whenever principal ≤ 0 or the term is
0; the schedule is empty exactly when the term is 0 (it always has
termYears×12 rows regardless of the principal), and for principal ≤ 0 every
row's payment is 0. -/
theorem c7_nonpositive_inputs (P rate : ℚ) (y : ℕ) :
    (P ≤ 0 ∨ y = 0 → calculateMonthlyPayment P rate y = 0)
    ∧ (y = 0 → generateAmortizationSchedule P rate y = [])
    ∧ (generateAmortizationSchedule P rate y).length = y * 12
    ∧ (P ≤ 0 → ∀ row ∈ generateAmortizationSchedule P rate y, row.payment = 0) := by
  refine ⟨?_, ?_, ?_, ?_⟩
  · intro h
    rw [calculateMonthlyPayment, if_pos h]
  · intro h
    subst h
    rfl
  · rw [generateAmortizationSchedule, amortAux_length]
  · intro hP row hrow
    have hM : calculateMonthlyPayment P rate y = 0 := by
      rw [calculateMonthlyPayment, if_pos (Or.inl hP)]
    rw [generateAmortizationSchedule] at hrow
    simp only [hM] at hrow
    exact amortAux_payment_eq 0 _ _ _ _ row hrow

/-- C7 witness: at principal -50, rate 3, term 2 the payment is 0 and the
schedule has 24 rows. -/
theorem c7_witness :
    calculateMonthlyPayment (-50) 3 2 = 0
    ∧ (generateAmortizationSchedule (-50) 3 2).length = 2 * 12 :=
  ⟨(c7_nonpositive_inputs (-50) 3 2).1 (Or.inl (by decide)),
   (c7_nonpositive_inputs (-50) 3 2).2.2.1⟩

/-! ## Equity projector (source: calculateEquityOverTime) -/

/-- One yearly equity snapshot, as pushed by `calculateEquityOverTime`. -/
structure EquitySnapshot where
  year : ℕ
  homeValue : ℚ
  loanBalance : ℚ
  principalPaid : ℚ
  equity : ℚ
deriving Repr, DecidableEq

/-- Loop body of `calculateEquityOverTime`: one snapshot per year; the loop
breaks (returns early) as soon as `year*12 - 1` is past the end of the
amortization schedule. -/
def equityAux (purchasePrice downPayment principal appreciationRate : ℚ)
    (schedule : List AmortizationRow) : ℕ → ℕ → List EquitySnapshot
  | _, 0 => []
  | year, fuel + 1 =>
    match schedule[year * 12 - 1]? with
    | none => []
    | some monthData =>
      let loanBalance := monthData.balance
      let homeValue := purchasePrice * (1 + appreciationRate / 100) ^ year
      let principalPaid := principal - loanBalance
      let equity := downPayment + principalPaid + (homeValue - purchasePrice)
      { year := year, homeValue := homeValue, loanBalance := loanBalance,
        principalPaid := principalPaid, equity := equity } ::
        equityAux purchasePrice downPayment principal appreciationRate schedule
          (year + 1) fuel

/-- Mirrors `calculateEquityOverTime(purchasePrice, principal, rate, years,
appreciationRate)`: the amortization schedule is generated for `years`, and
the yearly loop reads the balance at month index `year*12 - 1`. -/
def calculateEquityOverTime (purchasePrice principal rate : ℚ) (years : ℕ)
    (appreciationRate : ℚ) : List EquitySnapshot :=
  let schedule := generateAmortizationSchedule principal rate years
  equityAux purchasePrice (purchasePrice - principal) principal appreciationRate
    schedule 1 years

theorem equityAux_length (pp dp pr ar : ℚ) (schedule : List AmortizationRow)
    (fuel year : ℕ) (hyear : 1 ≤ year)
    (h : (year + fuel - 1) * 12 ≤ schedule.length) :
    (equityAux pp dp pr ar schedule year fuel).length = fuel := by
  induction fuel generalizing year with
  | zero => simp [equityAux]
  | succ n ih =>
    have hidx : year * 12 - 1 < schedule.length := by
      have : year * 12 ≤ (year + (n + 1) - 1) * 12 := by
        apply Nat.mul_le_mul_right
        omega
      omega
    obtain ⟨row, hrow⟩ : ∃ row, schedule[year * 12 - 1]? = some row :=
      ⟨schedule[year * 12 - 1], List.getElem?_eq_getElem hidx⟩
    rw [equityAux, hrow]
    simp only [List.length_cons]
    rw [ih (year + 1) (by omega) (by omega)]

/-- The equity projector produces exactly one snapshot per requested year:
the schedule it generates internally always has `years*12` rows, so the
early-exit break never fires. -/
theorem calculateEquityOverTime_length (pp pr rate : ℚ) (years : ℕ)
    (ar : ℚ) :
    (calculateEquityOverTime pp pr rate years ar).length = years := by
  rw [calculateEquityOverTime]
  apply equityAux_length _ _ _ _ _ _ _ (by omega)
  rw [generateAmortizationSchedule, amortAux_length]
  omega

/-! ## Investment growth projector (source: calculateInvestmentGrowth) -/

/-- One yearly investment snapshot, as pushed by `calculateInvestmentGrowth`. -/
structure InvestmentSnapshot where
  year : ℕ
  invested : ℚ
  value : ℚ
  gains : ℚ
deriving Repr, DecidableEq

/-- One month of the inner loop: add the contribution to both running totals,
then apply the monthly return to the value.  State is (totalValue,
totalInvested). -/
def investMonth (monthlyContribution monthlyRate : ℚ) (s : ℚ × ℚ) : ℚ × ℚ :=
  ((s.1 + monthlyContribution) * (1 + monthlyRate), s.2 + monthlyContribution)

/-- Twelve months of the inner loop. -/
def investYear (monthlyContribution monthlyRate : ℚ) (s : ℚ × ℚ) : ℚ × ℚ :=
  (List.range 12).foldl (fun t _ => investMonth monthlyContribution monthlyRate t) s

/-- Yearly loop of `calculateInvestmentGrowth`. -/
def investAux (monthlyContribution monthlyRate : ℚ) :
    ℕ → ℕ → ℚ × ℚ → List InvestmentSnapshot
  | _, 0, _ => []
  | year, fuel + 1, s =>
    let s1 := investYear monthlyContribution monthlyRate s
    { year := year, invested := s1.2, value := s1.1, gains := s1.1 - s1.2 } ::
      investAux monthlyContribution monthlyRate (year + 1) fuel s1

/-- Mirrors `calculateInvestmentGrowth(initialAmount, monthlyContribution,
annualReturn, years)`. -/
def calculateInvestmentGrowth (initialAmount monthlyContribution annualReturn : ℚ)
    (years : ℕ) : List InvestmentSnapshot :=
  let monthlyRate := annualReturn / 100 / 12
  investAux monthlyContribution monthlyRate 1 years (initialAmount, initialAmount)

/-- Invariant preserved by one month: value stays ≥ invested, ≥ its previous
value, and ≥ 0. -/
theorem investMonth_invariant (c r : ℚ) (hc : 0 ≤ c) (hr : 0 ≤ r) (s : ℚ × ℚ)
    (hv : 0 ≤ s.1) (hiv : s.2 ≤ s.1) :
    0 ≤ (investMonth c r s).1 ∧ (investMonth c r s).2 ≤ (investMonth c r s).1
    ∧ s.1 ≤ (investMonth c r s).1 := by
  have h1 : 0 ≤ s.1 + c := by linarith
  have h2 : s.1 + c ≤ (s.1 + c) * (1 + r) := by nlinarith
  refine ⟨by simp only [investMonth]; nlinarith, ?_, ?_⟩
  · simp only [investMonth]
    have : s.2 + c ≤ s.1 + c := by linarith
    nlinarith
  · simp only [investMonth]
    nlinarith

theorem investYear_invariant (c r : ℚ) (hc : 0 ≤ c) (hr : 0 ≤ r) (s : ℚ × ℚ)
    (hv : 0 ≤ s.1) (hiv : s.2 ≤ s.1) :
    0 ≤ (investYear c r s).1 ∧ (investYear c r s).2 ≤ (investYear c r s).1
    ∧ s.1 ≤ (investYear c r s).1 := by
  rw [investYear]
  induction (12 : ℕ) generalizing s with
  | zero => exact ⟨hv, hiv, le_refl _⟩
  | succ n ih =>
    rw [List.range_succ, List.foldl_append]
    obtain ⟨h1, h2, h3⟩ := ih s hv hiv
    obtain ⟨g1, g2, g3⟩ := investMonth_invariant c r hc hr _ h1 h2
    simp only [List.foldl_cons, List.foldl_nil] at *
    exact ⟨g1, g2, le_trans h3 g3⟩

theorem investAux_invariant (c r : ℚ) (hc : 0 ≤ c) (hr : 0 ≤ r) :
    ∀ fuel year s, 0 ≤ s.1 → s.2 ≤ s.1 →
      (∀ snap ∈ investAux c r year fuel s, snap.invested ≤ snap.value ∧ 0 ≤ snap.gains)
      ∧ (∀ snapA ∈ (investAux c r year fuel s).head?, s.1 ≤ snapA.value)
      ∧ (∀ i a b, (investAux c r year fuel s)[i]? = some a →
          (investAux c r year fuel s)[i + 1]? = some b → a.value ≤ b.value) := by
  intro fuel
  induction fuel with
  | zero => intro year s _ _; refine ⟨by simp [investAux], by simp [investAux], ?_⟩
            intro i a b ha _; simp [investAux] at ha
  | succ n ih =>
    intro year s hv hiv
    obtain ⟨h1, h2, h3⟩ := investYear_invariant c r hc hr s hv hiv
    obtain ⟨ih1, ih2, ih3⟩ := ih (year + 1) (investYear c r s) h1 h2
    refine ⟨?_, ?_, ?_⟩
    · intro snap hsnap
      simp only [investAux, List.mem_cons] at hsnap
      rcases hsnap with rfl | hsnap
      · exact ⟨h2, by simp only; linarith⟩
      · exact ih1 snap hsnap
    · intro snapA hA
      simp only [investAux, List.head?_cons, Option.mem_def, Option.some.injEq] at hA
      subst hA
      exact h3
    · intro i a b ha hb
      match i with
      | 0 =>
        simp only [investAux, List.getElem?_cons_zero, Option.some.injEq] at ha
        simp only [investAux, List.getElem?_cons_succ] at hb
        have hbmem : ∀ x ∈ (investAux c r (year + 1) n (investYear c r s)).head?,
            (investYear c r s).1 ≤ x.value := ih2
        have : (investAux c r (year + 1) n (investYear c r s))[0]? =
            (investAux c r (year + 1) n (investYear c r s)).head? := by
          cases investAux c r (year + 1) n (investYear c r s) <;> simp
        rw [this] at hb
        have := hbmem b (by rw [Option.mem_def]; exact hb)
        subst ha
        simpa using this
      | Nat.succ j =>
        simp only [investAux, List.getElem?_cons_succ] at ha hb
        exact ih3 j a b ha hb

/-- C8 counterexample: the claim quantifies only over annualReturn ≥ 0 and
monthlyContribution ≥ 0, leaving the initial amount unrestricted — and a
negative initial amount is an admitted input (callers such as
`compareHousePrices` pass a possibly negative down-payment difference
unclamped).  At initialAmount = -100, contribution = 0, return = 12, one
year, the single snapshot has gains < 0 (value < invested), refuting the
claimed invariant as stated. -/
theorem c8_counterexample :
    ((calculateInvestmentGrowth (-100) 0 12 1)[0]?.map InvestmentSnapshot.gains).getD 0 < 0
    ∧ ((calculateInvestmentGrowth (-100) 0 12 1)[0]?.map
        (fun snap => snap.value - snap.invested)).getD 0 < 0
    ∧ (0 : ℚ) ≤ 12 ∧ (0 : ℚ) ≤ 0 := by
  refine ⟨?_, ?_, by norm_num, le_refl 0⟩ <;>
    norm_num [calculateInvestmentGrowth, investAux, investYear, investMonth,
      List.range_succ]

/-- C8 amended: with annualReturn ≥ 0, monthlyContribution ≥ 0 and a
non-negative starting amount (the restriction the counterexample forces), the
projected `value` is non-decreasing from one yearly snapshot to the next, and
every snapshot has value ≥ invested, i.e. gains ≥ 0. -/
theorem c8_investment_monotone (initialAmount monthlyContribution annualReturn : ℚ)
    (years : ℕ) (hinit : 0 ≤ initialAmount) (hc : 0 ≤ monthlyContribution)
    (hr : 0 ≤ annualReturn) :
    (∀ i a b,
        (calculateInvestmentGrowth initialAmount monthlyContribution annualReturn years)[i]? = some a →
        (calculateInvestmentGrowth initialAmount monthlyContribution annualReturn years)[i + 1]? = some b →
        a.value ≤ b.value)
    ∧ (∀ snap ∈ calculateInvestmentGrowth initialAmount monthlyContribution annualReturn years,
        snap.invested ≤ snap.value ∧ 0 ≤ snap.gains) := by
  have hrm : 0 ≤ annualReturn / 100 / 12 := by positivity
  obtain ⟨h1, _, h3⟩ := investAux_invariant monthlyContribution (annualReturn / 100 / 12)
    hc hrm years 1 (initialAmount, initialAmount) hinit (le_refl _)
  exact ⟨h3, h1⟩

/-- C8 witness: with initial 5, contribution 0, return 0, one year: the single
snapshot has invested ≤ value. -/
theorem c8_witness :
    ({ year := 1, invested := 5, value := 5, gains := 0 } : InvestmentSnapshot).invested ≤
      ({ year := 1, invested := 5, value := 5, gains := 0 } : InvestmentSnapshot).value :=
  ((c8_investment_monotone 5 0 0 1 (by decide) (by decide) (by decide)).2
    { year := 1, invested := 5, value := 5, gains := 0 }
    (by norm_num [calculateInvestmentGrowth, investAux, investYear, investMonth,
      List.range_succ])).1

/-! ## Goal-seek solver (source: calculateYearsToGoal) -/

/-- While-loop of `calculateYearsToGoal`: run while `balance < goalAmount &&
months < 1200`, each iteration adding the contribution and then applying the
monthly growth; returns the month counter at exit. -/
def goalLoop (monthlyContribution monthlyRate goalAmount : ℚ)
    (balance : ℚ) (months : ℕ) : ℕ :=
  if goalAmount ≤ balance ∨ 1200 ≤ months then months
  else
    goalLoop monthlyContribution monthlyRate goalAmount
      ((balance + monthlyContribution) * (1 + monthlyRate)) (months + 1)
termination_by 1200 - months
decreasing_by
  simp only [not_or, not_le] at *
  omega

/-- Mirrors `calculateYearsToGoal(startingAmount, monthlyContribution,
annualReturn, goalAmount)`.  The JavaScript `Infinity` sentinel is modelled as
`none`; `Math.ceil(months/12)` on a natural number is `(months + 11) / 12`. -/
def calculateYearsToGoal (startingAmount monthlyContribution annualReturn
    goalAmount : ℚ) : Option ℕ :=
  if goalAmount ≤ startingAmount then some 0
  else if monthlyContribution ≤ 0 ∧ startingAmount < goalAmount then none
  else if 1200 ≤ goalLoop monthlyContribution (annualReturn / 100 / 12) goalAmount
      startingAmount 0 then none
  else some ((goalLoop monthlyContribution (annualReturn / 100 / 12) goalAmount
      startingAmount 0 + 11) / 12)

theorem goalLoop_le (c r g : ℚ) :
    ∀ (n : ℕ) (b : ℚ) (m : ℕ), 1200 - m ≤ n →
      goalLoop c r g b m ≤ max m 1200 := by
  intro n
  induction n with
  | zero =>
    intro b m hm
    rw [goalLoop, if_pos (Or.inr (by omega))]
    exact le_max_left m 1200
  | succ k ih =>
    intro b m hm
    rw [goalLoop]
    split
    · exact le_max_left m 1200
    · have := ih ((b + c) * (1 + r)) (m + 1) (by omega)
      calc goalLoop c r g ((b + c) * (1 + r)) (m + 1) ≤ max (m + 1) 1200 := this
        _ ≤ max m 1200 := by
            rename_i hcond
            simp only [not_or, not_le] at hcond
            omega

/-- C6: the goal-seek solver returns `some 0` whenever the goal is already
met, the `none` ("never") sentinel whenever the contribution is non-positive
and the goal is unmet, and in every case terminates with either `none` or a
year count of at most 100 (the 1200-month cap). -/
theorem c6_goal_seek (s c r g : ℚ) :
    (g ≤ s → calculateYearsToGoal s c r g = some 0)
    ∧ (c ≤ 0 → s < g → calculateYearsToGoal s c r g = none)
    ∧ (calculateYearsToGoal s c r g = none ∨
        ∃ k, calculateYearsToGoal s c r g = some k ∧ k ≤ 100) := by
  refine ⟨?_, ?_, ?_⟩
  · intro h
    rw [calculateYearsToGoal, if_pos h]
  · intro hc hs
    rw [calculateYearsToGoal, if_neg (by linarith), if_pos ⟨hc, hs⟩]
  · rw [calculateYearsToGoal]
    split
    · exact Or.inr ⟨0, rfl, by omega⟩
    · split
      · exact Or.inl rfl
      · have hle : goalLoop c (r / 100 / 12) g s 0 ≤ 1200 :=
          calc goalLoop c (r / 100 / 12) g s 0 ≤ max 0 1200 :=
                goalLoop_le c (r / 100 / 12) g 1200 s 0 (by omega)
            _ = 1200 := max_eq_right (Nat.zero_le 1200)
        split
        · exact Or.inl rfl
        · rename_i hcap
          simp only [not_le] at hcap
          exact Or.inr ⟨_, rfl, by omega⟩

/-- C6 witness: a starting amount already at the goal yields 0 years. -/
theorem c6_witness : calculateYearsToGoal 100 0 5 50 = some 0 :=
  (c6_goal_seek 100 0 5 50).1 (by decide)

/-! ## Affordability ratios (source: calculateAffordabilityRatios) -/

/-- Result record of `calculateAffordabilityRatios`. -/
structure AffordabilityResult where
  housingRatio : ℚ
  dtiRatio : ℚ
  withinGuidelines : Bool
  status : String
deriving Repr, DecidableEq

/-- Mirrors `calculateAffordabilityRatios(monthlyPayment, monthlyIncome,
otherDebtPayments)`: front-end and back-end ratios, the status ladder
(warning, caution, good, else excellent), and the withinGuidelines flag.
The embedding is faithful for positive income (JavaScript produces
Infinity/NaN ratios on income 0, where rational division yields 0). -/
def calculateAffordabilityRatios (monthlyPayment monthlyIncome
    otherDebtPayments : ℚ) : AffordabilityResult :=
  let housingRatio := monthlyPayment / monthlyIncome * 100
  let totalDebt := monthlyPayment + otherDebtPayments
  let dtiRatio := totalDebt / monthlyIncome * 100
  let status :=
    if 40 < housingRatio ∨ 43 < dtiRatio then "warning"
    else if 33 < housingRatio ∨ 36 < dtiRatio then "caution"
    else if 28 < housingRatio ∨ 30 < dtiRatio then "good"
    else "excellent"
  { housingRatio := housingRatio, dtiRatio := dtiRatio,
    withinGuidelines := decide (housingRatio ≤ 28 ∧ dtiRatio ≤ 36),
    status := status }

/-- C9: the affordability status is decided by first-match priority over the
pair of ratios: warning if housingRatio > 40 or dtiRatio > 43, else caution if
housingRatio > 33 or dtiRatio > 36, else good if housingRatio > 28 or
dtiRatio > 30, else excellent. -/
theorem c9_affordability_status (p inc d : ℚ) (_hinc : 0 < inc) :
    ((calculateAffordabilityRatios p inc d).status = "warning" ↔
      40 < (calculateAffordabilityRatios p inc d).housingRatio ∨
        43 < (calculateAffordabilityRatios p inc d).dtiRatio)
    ∧ ((calculateAffordabilityRatios p inc d).status = "caution" ↔
      ¬(40 < (calculateAffordabilityRatios p inc d).housingRatio ∨
          43 < (calculateAffordabilityRatios p inc d).dtiRatio)
        ∧ (33 < (calculateAffordabilityRatios p inc d).housingRatio ∨
            36 < (calculateAffordabilityRatios p inc d).dtiRatio))
    ∧ ((calculateAffordabilityRatios p inc d).status = "good" ↔
      ¬(40 < (calculateAffordabilityRatios p inc d).housingRatio ∨
          43 < (calculateAffordabilityRatios p inc d).dtiRatio)
        ∧ ¬(33 < (calculateAffordabilityRatios p inc d).housingRatio ∨
            36 < (calculateAffordabilityRatios p inc d).dtiRatio)
        ∧ (28 < (calculateAffordabilityRatios p inc d).housingRatio ∨
            30 < (calculateAffordabilityRatios p inc d).dtiRatio))
    ∧ ((calculateAffordabilityRatios p inc d).status = "excellent" ↔
      ¬(40 < (calculateAffordabilityRatios p inc d).housingRatio ∨
          43 < (calculateAffordabilityRatios p inc d).dtiRatio)
        ∧ ¬(33 < (calculateAffordabilityRatios p inc d).housingRatio ∨
            36 < (calculateAffordabilityRatios p inc d).dtiRatio)
        ∧ ¬(28 < (calculateAffordabilityRatios p inc d).housingRatio ∨
            30 < (calculateAffordabilityRatios p inc d).dtiRatio)) := by
  simp only [calculateAffordabilityRatios]
  split_ifs with h1 h2 h3 <;>
    refine ⟨?_, ?_, ?_, ?_⟩ <;>
    simp_all

/-- C9 witness: payment 1000 against income 4000 gives housing ratio 25 and
DTI 25, hence status excellent. -/
theorem c9_witness : (calculateAffordabilityRatios 1000 4000 0).status = "excellent" :=
  (c9_affordability_status 1000 4000 0 (by decide)).2.2.2.mpr
    (by norm_num [calculateAffordabilityRatios])

/-! ## Comparator (source: determineWinner) -/

/-- One entry of `netWorthData`, as built by `calculateScenarioFinancials`. -/
structure NetWorthPoint where
  year : ℕ
  equity : ℚ
  portfolio : ℚ
  totalNetWorth : ℚ
deriving Repr, DecidableEq

/-- The fields of a scenario's results record that `determineWinner` reads. -/
structure ScenarioResults where
  finalNetWorth : ℚ
  netWorthData : List NetWorthPoint
deriving Repr, DecidableEq

/-- Mirrors `netWorthData[i]?.totalNetWorth || 0`. -/
def nwAt (l : List NetWorthPoint) (i : ℕ) : ℚ :=
  (l[i]?.map NetWorthPoint.totalNetWorth).getD 0

/-- The crossover condition checked by `determineWinner` at loop index `i`:
the previous pair is strictly ordered one way and the current pair is
(weakly) ordered the other way. -/
def crossCond (rA rB : ScenarioResults) (i : ℕ) : Prop :=
  (nwAt rA.netWorthData (i - 1) < nwAt rB.netWorthData (i - 1)
      ∧ nwAt rB.netWorthData i ≤ nwAt rA.netWorthData i)
    ∨ (nwAt rB.netWorthData (i - 1) < nwAt rA.netWorthData (i - 1)
      ∧ nwAt rA.netWorthData i ≤ nwAt rB.netWorthData i)

instance (rA rB : ScenarioResults) (i : ℕ) : Decidable (crossCond rA rB i) := by
  unfold crossCond
  infer_instance

/-- Break-even loop of `determineWinner`: `for (i = 0; i < timeframe; i++)`,
skipping `i = 0`, returning `i + 1` at the first index where the crossover
condition holds. -/
def breakEvenAux (rA rB : ScenarioResults) (timeframe i : ℕ) : Option ℕ :=
  if timeframe ≤ i then none
  else if i = 0 then breakEvenAux rA rB timeframe (i + 1)
  else if crossCond rA rB i then some (i + 1)
  else breakEvenAux rA rB timeframe (i + 1)
termination_by timeframe - i
decreasing_by all_goals omega

/-- Result record of `determineWinner`. -/
structure WinnerResult where
  winner : String
  difference : ℚ
  breakEvenYear : Option ℕ
deriving Repr, DecidableEq

/-- Mirrors `determineWinner(resultsA, resultsB, timeframe)`:
`finalDiff > 0 ? 'A' : 'B'`, absolute difference, and the break-even year. -/
def determineWinner (resultsA resultsB : ScenarioResults) (timeframe : ℕ) :
    WinnerResult :=
  { winner := if 0 < resultsA.finalNetWorth - resultsB.finalNetWorth then "A" else "B",
    difference := |resultsA.finalNetWorth - resultsB.finalNetWorth|,
    breakEvenYear := breakEvenAux resultsA resultsB timeframe 0 }

/-- C1 counterexample: with both final net worths exactly equal (100 each)
the declared winner is "B", not the claimed default "A". -/
theorem c1_counterexample :
    (determineWinner { finalNetWorth := 100, netWorthData := [] }
        { finalNetWorth := 100, netWorthData := [] } 1).winner = "B"
    ∧ ("B" : String) ≠ "A" := by
  constructor
  · rw [determineWinner]
    norm_num
  · decide

/-- C1 amended: the declared winner is "A" exactly when A's final net worth is
strictly larger, and "B" otherwise — so an exact tie defaults to "B",
not "A". -/
theorem c1_winner_rule (rA rB : ScenarioResults) (tf : ℕ) :
    ((determineWinner rA rB tf).winner = "A" ↔ rB.finalNetWorth < rA.finalNetWorth)
    ∧ ((determineWinner rA rB tf).winner = "B" ↔ rA.finalNetWorth ≤ rB.finalNetWorth) := by
  rw [determineWinner]
  simp only
  rcases lt_or_le rB.finalNetWorth rA.finalNetWorth with h | h
  · rw [if_pos (by linarith)]
    constructor
    · simp [h]
    · constructor
      · intro hba
        exact absurd hba (by decide)
      · intro hle
        linarith
  · rw [if_neg (by linarith)]
    constructor
    · constructor
      · intro hba
        exact absurd hba (by decide)
      · intro hlt
        linarith
    · simp [h]

theorem breakEvenAux_spec (rA rB : ScenarioResults) (tf : ℕ) :
    ∀ (n i : ℕ), tf - i ≤ n → 1 ≤ i →
      (breakEvenAux rA rB tf i = none ↔ ∀ j, i ≤ j → j < tf → ¬crossCond rA rB j)
      ∧ (∀ y, breakEvenAux rA rB tf i = some y ↔
          ∃ i2, i ≤ i2 ∧ i2 < tf ∧ crossCond rA rB i2 ∧ y = i2 + 1 ∧
            ∀ j, i ≤ j → j < i2 → ¬crossCond rA rB j) := by
  intro n
  induction n with
  | zero =>
    intro i hn hi
    have htf : tf ≤ i := by omega
    rw [breakEvenAux, if_pos htf]
    constructor
    · constructor
      · intro _ j hj1 hj2
        omega
      · intro _
        rfl
    · intro y
      constructor
      · intro h
        exact Option.noConfusion h
      · rintro ⟨i2, h1, h2, _, _, _⟩
        omega
  | succ m ih =>
    intro i hn hi
    by_cases htf : tf ≤ i
    · rw [breakEvenAux, if_pos htf]
      constructor
      · constructor
        · intro _ j hj1 hj2
          omega
        · intro _
          rfl
      · intro y
        constructor
        · intro h
          exact Option.noConfusion h
        · rintro ⟨i2, h1, h2, _, _, _⟩
          omega
    · have hi0 : ¬(i = 0) := by omega
      rw [breakEvenAux, if_neg htf, if_neg hi0]
      by_cases hc : crossCond rA rB i
      · rw [if_pos hc]
        constructor
        · constructor
          · intro h
            exact Option.noConfusion h
          · intro hall
            exact absurd hc (hall i (le_refl i) (by omega))
        · intro y
          constructor
          · intro h
            refine ⟨i, le_refl i, by omega, hc, (Option.some.inj h).symm, ?_⟩
            intro j hj1 hj2
            omega
          · rintro ⟨i2, h1, h2, hc2, rfl, hleast⟩
            rcases eq_or_lt_of_le h1 with rfl | hlt
            · rfl
            · exact absurd hc (hleast i (le_refl i) hlt)
      · rw [if_neg hc]
        obtain ⟨ihnone, ihsome⟩ := ih (i + 1) (by omega) (by omega)
        constructor
        · rw [ihnone]
          constructor
          · intro hall j hj1 hj2
            rcases eq_or_lt_of_le hj1 with rfl | hlt
            · exact hc
            · exact hall j (by omega) hj2
          · intro hall j hj1 hj2
            exact hall j (by omega) hj2
        · intro y
          rw [ihsome y]
          constructor
          · rintro ⟨i2, h1, h2, hc2, rfl, hleast⟩
            refine ⟨i2, by omega, h2, hc2, rfl, ?_⟩
            intro j hj1 hj2
            rcases eq_or_lt_of_le hj1 with rfl | hlt
            · exact hc
            · exact hleast j (by omega) hj2
          · rintro ⟨i2, h1, h2, hc2, rfl, hleast⟩
            have hne : i ≠ i2 := by
              intro heq
              exact hc (heq ▸ hc2)
            refine ⟨i2, by omega, h2, hc2, rfl, ?_⟩
            intro j hj1 hj2
            exact hleast j (by omega) hj2

/-- C4: the break-even year reported by the comparator is `none` exactly when
no crossover index exists in `[1, timeframe)`, and `some y` exactly when the
first (least) crossover index `i` there satisfies `y = i + 1`, i.e. the first
year whose pair sign-flips relative to the previous pair (ties in the current
pair counting as a flip). -/
theorem c4_break_even (rA rB : ScenarioResults) (tf : ℕ) :
    ((determineWinner rA rB tf).breakEvenYear = none ↔
      ∀ j, 1 ≤ j → j < tf → ¬crossCond rA rB j)
    ∧ (∀ y, (determineWinner rA rB tf).breakEvenYear = some y ↔
        ∃ i, 1 ≤ i ∧ i < tf ∧ crossCond rA rB i ∧ y = i + 1 ∧
          ∀ j, 1 ≤ j → j < i → ¬crossCond rA rB j) := by
  have hstep : (determineWinner rA rB tf).breakEvenYear = breakEvenAux rA rB tf 0 := rfl
  by_cases htf : tf = 0
  · subst htf
    rw [hstep, breakEvenAux, if_pos (by omega)]
    constructor
    · constructor
      · intro _ j hj1 hj2
        omega
      · intro _
        rfl
    · intro y
      constructor
      · intro h
        exact Option.noConfusion h
      · rintro ⟨i, h1, h2, _, _, _⟩
        omega
  · have h01 : breakEvenAux rA rB tf 0 = breakEvenAux rA rB tf 1 := by
      rw [breakEvenAux, if_neg (by omega), if_pos rfl]
    rw [hstep, h01]
    exact breakEvenAux_spec rA rB tf (tf - 1) 1 (by omega) (by omega)

/-- Concrete crossover scenario A: net worth 10 for years 1–6, then 0. -/
def crossSeriesA : ScenarioResults :=
  { finalNetWorth := 0,
    netWorthData :=
      [⟨1, 0, 0, 10⟩, ⟨2, 0, 0, 10⟩, ⟨3, 0, 0, 10⟩, ⟨4, 0, 0, 10⟩,
       ⟨5, 0, 0, 10⟩, ⟨6, 0, 0, 10⟩, ⟨7, 0, 0, 0⟩, ⟨8, 0, 0, 0⟩] }

/-- Concrete crossover scenario B: net worth 0 for years 1–6, then 5. -/
def crossSeriesB : ScenarioResults :=
  { finalNetWorth := 5,
    netWorthData :=
      [⟨1, 0, 0, 0⟩, ⟨2, 0, 0, 0⟩, ⟨3, 0, 0, 0⟩, ⟨4, 0, 0, 0⟩,
       ⟨5, 0, 0, 0⟩, ⟨6, 0, 0, 0⟩, ⟨7, 0, 0, 5⟩, ⟨8, 0, 0, 5⟩] }

/-- C4 witness: two series that start with A above B and cross exactly once at
year 7 yield breakEvenYear = 7. -/
theorem c4_witness :
    (determineWinner crossSeriesA crossSeriesB 8).breakEvenYear = some 7 :=
  ((c4_break_even crossSeriesA crossSeriesB 8).2 7).mpr
    ⟨6, by omega, by omega, by decide, rfl, by
      intro j hj1 hj2
      interval_cases j <;> decide⟩

/-! ## Year-by-year financial simulator (source: calculateYearByYearFinancials) -/

/-- Property fields of a scenario read by the simulator. -/
structure PropertyInfo where
  purchasePrice : ℚ
  downPaymentAmount : ℚ
  interestRate : ℚ
  loanTerm : ℕ
deriving Repr, DecidableEq

/-- Income fields of a scenario read by the simulator. -/
structure IncomeInfo where
  annualIncome : ℚ
  currentPortfolio : ℚ
deriving Repr, DecidableEq

/-- Derived calculation fields of a scenario read by the simulator. -/
structure ScenarioCalculations where
  totalMonthlyCost : ℚ
  loanAmount : ℚ
deriving Repr, DecidableEq

/-- A saved scenario (the parts `calculateYearByYearFinancials` reads). -/
structure Scenario where
  propertyInfo : PropertyInfo
  incomeInfo : IncomeInfo
  calculations : ScenarioCalculations
deriving Repr, DecidableEq

/-- Life-event type tag: 'one-time' | 'ongoing' | 'income'. -/
inductive LifeEventType where
  | oneTime
  | ongoing
  | income
deriving Repr, DecidableEq

/-- A life event row. -/
structure LifeEvent where
  year : ℕ
  description : String
  type : LifeEventType
  amount : ℚ
deriving Repr, DecidableEq

/-- An income adjustment (overrides projected income for one exact year). -/
structure IncomeAdjustment where
  year : ℕ
  income : ℚ
deriving Repr, DecidableEq

/-- One record of `yearlyData`, as pushed per year by the simulator. -/
structure YearlyRecord where
  year : ℕ
  annualIncome : ℚ
  monthlyIncome : ℚ
  monthlyExpenses : ℚ
  monthlyDiscretionary : ℚ
  monthlySavings : ℚ
  oneTimeExpense : ℚ
  portfolio : ℚ
  equity : ℚ
  netWorth : ℚ
deriving Repr, DecidableEq

/-- The mutable state carried across simulated years: `currentIncome`,
`portfolio`, `ongoingExpenseAdjustment`. -/
structure SimState where
  currentIncome : ℚ
  portfolio : ℚ
  ongoingExpenseAdjustment : ℚ
deriving Repr, DecidableEq

/-- The per-run constants of the simulator loop (enclosing-scope variables in
the source function, the global `appState.incomeAdjustments` passed
explicitly). -/
structure SimParams where
  annualRaise : ℚ
  baseExpenses : ℚ
  savingsRate : ℚ
  investmentReturn : ℚ
  monthlyHousing : ℚ
  incomeAdjustments : List IncomeAdjustment
  equityData : List EquitySnapshot
  lifeEvents : List LifeEvent
deriving Repr, DecidableEq

/-- The `lifeEvents.forEach` accumulation for one year over the triple
(oneTimeExpense, ongoingExpenseAdjustment, currentIncome). -/
def lifeEventsFold (events : List LifeEvent) (year : ℕ) (acc : ℚ × ℚ × ℚ) :
    ℚ × ℚ × ℚ :=
  events.foldl
    (fun t ev =>
      if ev.year = year then
        match ev.type with
        | LifeEventType.oneTime => (t.1 + ev.amount, t.2.1, t.2.2)
        | LifeEventType.ongoing => (t.1, t.2.1 + ev.amount / 12, t.2.2)
        | LifeEventType.income => (t.1, t.2.1, t.2.2 + ev.amount)
      else t)
    acc

/-- One iteration of the simulator's year loop, in source order: raise, income
adjustment override, baseline expenses (before life events), life events,
discretionary/savings, 12 months of add-then-compound portfolio growth,
one-time deduction floored at 0, equity lookup `equityData[year-1]?.equity||0`. -/
def simYear (P : SimParams) (year : ℕ) (st : SimState) : YearlyRecord × SimState :=
  let income1 := st.currentIncome * (1 + P.annualRaise / 100)
  let income2 :=
    match P.incomeAdjustments.find? (fun adj => adj.year = year) with
    | some adj => adj.income
    | none => income1
  let monthlyExpenses := P.monthlyHousing + P.baseExpenses + st.ongoingExpenseAdjustment
  let folded := lifeEventsFold P.lifeEvents year (0, st.ongoingExpenseAdjustment, income2)
  let oneTimeExpense := folded.1
  let newOngoing := folded.2.1
  let income3 := folded.2.2
  let finalMonthlyIncome := income3 / 12
  let monthlyDiscretionary := finalMonthlyIncome - monthlyExpenses
  let monthlySavings :=
    if 0 < monthlyDiscretionary then monthlyDiscretionary * P.savingsRate / 100 else 0
  let monthlyRate := P.investmentReturn / 100 / 12
  let grown := (List.range 12).foldl
    (fun p _ => (p + monthlySavings) * (1 + monthlyRate)) st.portfolio
  let newPortfolio := max 0 (grown - oneTimeExpense)
  let equity := (P.equityData[year - 1]?.map EquitySnapshot.equity).getD 0
  ({ year := year, annualIncome := income3, monthlyIncome := finalMonthlyIncome,
     monthlyExpenses := monthlyExpenses, monthlyDiscretionary := monthlyDiscretionary,
     monthlySavings := monthlySavings, oneTimeExpense := oneTimeExpense,
     portfolio := newPortfolio, equity := equity,
     netWorth := newPortfolio + equity },
   { currentIncome := income3, portfolio := newPortfolio,
     ongoingExpenseAdjustment := newOngoing })

/-- The simulator's year loop, pushing one record per year. -/
def simAux (P : SimParams) : ℕ → ℕ → SimState → List YearlyRecord
  | _, 0, _ => []
  | year, fuel + 1, st =>
    (simYear P year st).1 :: simAux P (year + 1) fuel (simYear P year st).2

/-- Return value of `calculateYearByYearFinancials`. -/
structure YearByYearResult where
  yearlyData : List YearlyRecord
  equityData : List EquitySnapshot
deriving Repr, DecidableEq

/-- Mirrors `calculateYearByYearFinancials(scenario, years, annualRaise,
baseExpenses, savingsRate, lifeEvents, investmentReturn, appreciationRate)`.
The global `appState.incomeAdjustments` the source reads is passed as the
final explicit parameter.  The parallel equity projection is run for
`Math.min(years, loanTerm)` years. -/
def calculateYearByYearFinancials (scenario : Scenario) (years : ℕ)
    (annualRaise baseExpenses savingsRate : ℚ) (lifeEvents : List LifeEvent)
    (investmentReturn appreciationRate : ℚ)
    (incomeAdjustments : List IncomeAdjustment) : YearByYearResult :=
  let startingPortfolio :=
    max 0 (scenario.incomeInfo.currentPortfolio - scenario.propertyInfo.downPaymentAmount)
  let equityData := calculateEquityOverTime scenario.propertyInfo.purchasePrice
    scenario.calculations.loanAmount scenario.propertyInfo.interestRate
    (min years scenario.propertyInfo.loanTerm) appreciationRate
  { yearlyData :=
      simAux
        { annualRaise := annualRaise, baseExpenses := baseExpenses,
          savingsRate := savingsRate, investmentReturn := investmentReturn,
          monthlyHousing := scenario.calculations.totalMonthlyCost,
          incomeAdjustments := incomeAdjustments, equityData := equityData,
          lifeEvents := lifeEvents }
        1 years
        { currentIncome := scenario.incomeInfo.annualIncome,
          portfolio := startingPortfolio, ongoingExpenseAdjustment := 0 },
    equityData := equityData }

/-- C3: when the requested horizon is at least the loan term, the equity
projection run by the simulator (which passes `min years loanTerm`, the
source's truncation policy) has exactly one snapshot per loan-term year —
e.g. 30 snapshots for a 30-year loan at a 50-year horizon — and in general
its length is `min years loanTerm`. -/
theorem c3_equity_truncation (sc : Scenario) (years : ℕ)
    (annualRaise baseExpenses savingsRate : ℚ) (lifeEvents : List LifeEvent)
    (investmentReturn appreciationRate : ℚ)
    (incomeAdjustments : List IncomeAdjustment)
    (h : sc.propertyInfo.loanTerm ≤ years) :
    (calculateYearByYearFinancials sc years annualRaise baseExpenses savingsRate
        lifeEvents investmentReturn appreciationRate incomeAdjustments).equityData.length
      = sc.propertyInfo.loanTerm
    ∧ (calculateYearByYearFinancials sc years annualRaise baseExpenses savingsRate
        lifeEvents investmentReturn appreciationRate incomeAdjustments).equityData.length
      = min years sc.propertyInfo.loanTerm := by
  have hlen :
      (calculateYearByYearFinancials sc years annualRaise baseExpenses savingsRate
          lifeEvents investmentReturn appreciationRate incomeAdjustments).equityData.length
        = min years sc.propertyInfo.loanTerm :=
    calculateEquityOverTime_length _ _ _ _ _
  exact ⟨by rw [hlen]; omega, hlen⟩

/-- Scenario used in concrete instantiations: a 1-year loan term and all
monetary inputs zero. -/
def zeroScenario : Scenario :=
  { propertyInfo :=
      { purchasePrice := 0, downPaymentAmount := 0, interestRate := 0, loanTerm := 1 },
    incomeInfo := { annualIncome := 0, currentPortfolio := 0 },
    calculations := { totalMonthlyCost := 0, loanAmount := 0 } }

/-- C3 witness: with loan term 1 and horizon 3 the equity series has exactly
1 = min 3 1 snapshot. -/
theorem c3_witness :
    (calculateYearByYearFinancials zeroScenario 3 0 0 0 [] 0 0 []).equityData.length = 1 :=
  (c3_equity_truncation zeroScenario 3 0 0 0 [] 0 0 [] (by decide)).1

theorem simAux_record_shape (P : SimParams) :
    ∀ fuel year st, ∀ row ∈ simAux P year fuel st,
      year ≤ row.year
      ∧ row.equity = (P.equityData[row.year - 1]?.map EquitySnapshot.equity).getD 0
      ∧ row.netWorth = row.portfolio + row.equity := by
  intro fuel
  induction fuel with
  | zero => intro year st row hrow; simp [simAux] at hrow
  | succ n ih =>
    intro year st row hrow
    simp only [simAux, List.mem_cons] at hrow
    rcases hrow with rfl | hrow
    · exact ⟨le_refl _, rfl, rfl⟩
    · obtain ⟨h1, h2, h3⟩ := ih (year + 1) (simYear P year st).2 row hrow
      exact ⟨by omega, h2, h3⟩

/-- C10: in the buy-scenario simulator, every yearly record for a year beyond
the loan term reports equity 0 and netWorth = portfolio, because the parallel
equity projection only covers `min years loanTerm` years and missing entries
default to 0. -/
theorem c10_equity_vanishes (sc : Scenario) (years : ℕ)
    (annualRaise baseExpenses savingsRate : ℚ) (lifeEvents : List LifeEvent)
    (investmentReturn appreciationRate : ℚ)
    (incomeAdjustments : List IncomeAdjustment) :
    ∀ row ∈ (calculateYearByYearFinancials sc years annualRaise baseExpenses
        savingsRate lifeEvents investmentReturn appreciationRate
        incomeAdjustments).yearlyData,
      sc.propertyInfo.loanTerm < row.year →
      row.equity = 0 ∧ row.netWorth = row.portfolio := by
  intro row hrow hterm
  obtain ⟨h1, h2, h3⟩ := simAux_record_shape _ years 1 _ row hrow
  have hnone2 : (calculateEquityOverTime sc.propertyInfo.purchasePrice
      sc.calculations.loanAmount sc.propertyInfo.interestRate
      (min years sc.propertyInfo.loanTerm) appreciationRate)[row.year - 1]? = none := by
    apply List.getElem?_eq_none
    rw [calculateEquityOverTime_length]
    omega
  have hequity : row.equity = 0 := by
    rw [h2]
    dsimp only
    rw [hnone2]
    simp
  exact ⟨hequity, by rw [h3, hequity, add_zero]⟩

/-- The all-zero year-2 record produced by running `zeroScenario` for 2 years. -/
def zeroYear2Row : YearlyRecord :=
  { year := 2, annualIncome := 0, monthlyIncome := 0, monthlyExpenses := 0,
    monthlyDiscretionary := 0, monthlySavings := 0, oneTimeExpense := 0,
    portfolio := 0, equity := 0, netWorth := 0 }

/-- C10 witness: with a 1-year loan term and a 2-year horizon, the year-2
record reports equity 0 and netWorth = portfolio. -/
theorem c10_witness :
    zeroYear2Row.equity = 0 ∧ zeroYear2Row.netWorth = zeroYear2Row.portfolio :=
  c10_equity_vanishes zeroScenario 2 0 0 0 [] 0 0 [] zeroYear2Row
    (by norm_num [calculateYearByYearFinancials, simAux, simYear, lifeEventsFold,
      calculateEquityOverTime, equityAux, generateAmortizationSchedule,
      calculateMonthlyPayment, amortAux, List.range_succ, zeroScenario, zeroYear2Row])
    (by decide)

theorem max_sub_clamp (g X : ℚ) (hX : 0 ≤ X) :
    max 0 (g - X) = max 0 (max 0 g - X) := by
  rcases le_or_lt 0 g with h | h
  · rw [max_eq_right h]
  · rw [max_eq_left (le_of_lt h)]
    rw [max_eq_left (by linarith), max_eq_left (by linarith)]

/-- A year with no matching life event behaves as if the event list were
empty. -/
theorem simYear_skip (P : SimParams) (ev : LifeEvent) (year : ℕ) (st : SimState)
    (h : ev.year ≠ year) :
    simYear { P with lifeEvents := [ev] } year st
      = simYear { P with lifeEvents := [] } year st := by
  simp [simYear, lifeEventsFold, h]

/-- With an empty event list, the post-year income depends only on the
incoming income. -/
theorem simYear_empty_income (P : SimParams) (year : ℕ) (stA stB : SimState)
    (h : stA.currentIncome = stB.currentIncome) :
    (simYear { P with lifeEvents := [] } year stA).2.currentIncome
      = (simYear { P with lifeEvents := [] } year stB).2.currentIncome := by
  simp only [simYear, lifeEventsFold, List.foldl_nil]
  cases hfind : P.incomeAdjustments.find? (fun adj => adj.year = year) <;>
    simp [hfind, h]

/-- With an empty event list, the ongoing-expense adjustment is unchanged. -/
theorem simYear_empty_ongoing (P : SimParams) (year : ℕ) (st : SimState) :
    (simYear { P with lifeEvents := [] } year st).2.ongoingExpenseAdjustment
      = st.ongoingExpenseAdjustment := rfl

/-- Recorded monthly expenses are the pre-event baseline. -/
theorem simYear_monthlyExpenses (P : SimParams) (year : ℕ) (st : SimState) :
    (simYear P year st).1.monthlyExpenses
      = P.monthlyHousing + P.baseExpenses + st.ongoingExpenseAdjustment := rfl

/-- Once the (single) event's year is strictly past, recorded monthly
expenses in the run with the event exceed those of the event-free run by
exactly the accumulated ongoing adjustment difference `d` of the incoming
states, provided incomes agree. -/
theorem simAux_expenses_shift (P : SimParams) (ev : LifeEvent) (d : ℚ) :
    ∀ fuel year stA stB, ev.year < year →
      stA.currentIncome = stB.currentIncome →
      stA.ongoingExpenseAdjustment = stB.ongoingExpenseAdjustment + d →
      (simAux { P with lifeEvents := [ev] } year fuel stA).map
          YearlyRecord.monthlyExpenses
        = (simAux { P with lifeEvents := [] } year fuel stB).map
            (fun row => row.monthlyExpenses + d) := by
  intro fuel
  induction fuel with
  | zero => intro year stA stB _ _ _; simp [simAux]
  | succ n ih =>
    intro year stA stB hy hinc hong
    have hskip := simYear_skip P ev year stA (by omega)
    simp only [simAux, List.map_cons]
    congr 1
    · rw [simYear_monthlyExpenses, simYear_monthlyExpenses, hong]
      simp only [SimParams.monthlyHousing, SimParams.baseExpenses]
      ring
    · rw [hskip]
      apply ih (year + 1) _ _ (by omega)
      · rw [simYear_empty_income P year stA stB hinc]
      · rw [simYear_empty_ongoing, simYear_empty_ongoing, hong]

/-- Effect of a one-time event in its own year: the recorded one-time expense
is the event amount, the recorded portfolio is the event-free portfolio
reduced by the amount and floored at 0, and recorded expenses, post-year
income and the ongoing adjustment are untouched. -/
theorem simYear_oneTime_at (P : SimParams) (ev : LifeEvent) (year : ℕ)
    (st : SimState) (hy : ev.year = year)
    (hty : ev.type = LifeEventType.oneTime) (ham : 0 ≤ ev.amount) :
    (simYear { P with lifeEvents := [ev] } year st).1.portfolio
      = max 0 ((simYear { P with lifeEvents := [] } year st).1.portfolio - ev.amount)
    ∧ (simYear { P with lifeEvents := [ev] } year st).1.oneTimeExpense = ev.amount
    ∧ (simYear { P with lifeEvents := [ev] } year st).1.monthlyExpenses
      = (simYear { P with lifeEvents := [] } year st).1.monthlyExpenses
    ∧ (simYear { P with lifeEvents := [ev] } year st).2.currentIncome
      = (simYear { P with lifeEvents := [] } year st).2.currentIncome
    ∧ (simYear { P with lifeEvents := [ev] } year st).2.ongoingExpenseAdjustment
      = (simYear { P with lifeEvents := [] } year st).2.ongoingExpenseAdjustment := by
  subst hy
  refine ⟨?_, ?_, rfl, ?_, ?_⟩
  · simp only [simYear, lifeEventsFold, List.foldl_cons, List.foldl_nil, if_pos, hty]
    simp only [zero_add, sub_zero]
    exact max_sub_clamp _ _ ham
  · simp [simYear, lifeEventsFold, hty]
  · simp [simYear, lifeEventsFold, hty]
  · simp [simYear, lifeEventsFold, hty]

/-- Effect of an ongoing event in its own year: the recorded year row is
identical to the event-free row (the adjustment only enters the carried
state), income is untouched, and the carried ongoing adjustment grows by
amount/12. -/
theorem simYear_ongoing_at (P : SimParams) (ev : LifeEvent) (year : ℕ)
    (st : SimState) (hy : ev.year = year)
    (hty : ev.type = LifeEventType.ongoing) :
    (simYear { P with lifeEvents := [ev] } year st).1
      = (simYear { P with lifeEvents := [] } year st).1
    ∧ (simYear { P with lifeEvents := [ev] } year st).2.currentIncome
      = (simYear { P with lifeEvents := [] } year st).2.currentIncome
    ∧ (simYear { P with lifeEvents := [ev] } year st).2.ongoingExpenseAdjustment
      = (simYear { P with lifeEvents := [] } year st).2.ongoingExpenseAdjustment
          + ev.amount / 12 := by
  subst hy
  refine ⟨?_, ?_, ?_⟩
  · simp [simYear, lifeEventsFold, hty]
  · simp [simYear, lifeEventsFold, hty]
  · simp [simYear, lifeEventsFold, hty]

theorem simAux_oneTime_effect (P : SimParams) (ev : LifeEvent)
    (hty : ev.type = LifeEventType.oneTime) (ham : 0 ≤ ev.amount) :
    ∀ fuel year st, year ≤ ev.year →
      ((simAux { P with lifeEvents := [ev] } year fuel st).map
          YearlyRecord.monthlyExpenses
        = (simAux { P with lifeEvents := [] } year fuel st).map
            YearlyRecord.monthlyExpenses)
      ∧ ((simAux { P with lifeEvents := [ev] } year fuel st).take (ev.year - year)
        = (simAux { P with lifeEvents := [] } year fuel st).take (ev.year - year))
      ∧ (∀ rA rB,
          (simAux { P with lifeEvents := [ev] } year fuel st)[ev.year - year]? = some rA →
          (simAux { P with lifeEvents := [] } year fuel st)[ev.year - year]? = some rB →
          rA.portfolio = max 0 (rB.portfolio - ev.amount)
            ∧ rA.oneTimeExpense = ev.amount) := by
  intro fuel
  induction fuel with
  | zero =>
    intro year st _
    refine ⟨rfl, rfl, ?_⟩
    intro rA rB hA _
    simp [simAux] at hA
  | succ n ih =>
    intro year st hle
    rcases eq_or_lt_of_le hle with heq | hlt
    · -- the event fires this year
      obtain ⟨hport, hone, hexp, hincSt, hongSt⟩ :=
        simYear_oneTime_at P ev year st heq.symm hty ham
      have hidx : ev.year - year = 0 := by omega
      refine ⟨?_, ?_, ?_⟩
      · have hshift := simAux_expenses_shift P ev 0 n (year + 1)
          (simYear { P with lifeEvents := [ev] } year st).2
          (simYear { P with lifeEvents := [] } year st).2
          (by omega) hincSt (by rw [hongSt, add_zero])
        have hfun : (fun row => YearlyRecord.monthlyExpenses row + (0 : ℚ))
            = YearlyRecord.monthlyExpenses := funext fun row => add_zero _
        rw [hfun] at hshift
        simp only [simAux, List.map_cons]
        rw [hexp, hshift]
      · simp [hidx]
      · intro rA rB hA hB
        rw [hidx] at hA hB
        simp only [simAux, List.getElem?_cons_zero, Option.some.injEq] at hA hB
        subst hA
        subst hB
        exact ⟨hport, hone⟩
    · -- the event is still in the future
      have hskip := simYear_skip P ev year st (by omega)
      obtain ⟨ih1, ih2, ih3⟩ :=
        ih (year + 1) (simYear { P with lifeEvents := [] } year st).2 (by omega)
      have hsucc : ev.year - year = (ev.year - (year + 1)) + 1 := by omega
      refine ⟨?_, ?_, ?_⟩
      · simp only [simAux, List.map_cons, hskip]
        rw [ih1]
      · rw [hsucc]
        simp only [simAux, List.take_succ_cons, hskip]
        rw [ih2]
      · intro rA rB hA hB
        rw [hsucc] at hA hB
        simp only [simAux, List.getElem?_cons_succ, hskip] at hA hB
        exact ih3 rA rB hA hB

theorem simAux_ongoing_effect (P : SimParams) (ev : LifeEvent)
    (hty : ev.type = LifeEventType.ongoing) :
    ∀ fuel year st, year ≤ ev.year →
      ((simAux { P with lifeEvents := [ev] } year fuel st).take (ev.year - year + 1)
        = (simAux { P with lifeEvents := [] } year fuel st).take (ev.year - year + 1))
      ∧ (((simAux { P with lifeEvents := [ev] } year fuel st).drop
            (ev.year - year + 1)).map YearlyRecord.monthlyExpenses
        = ((simAux { P with lifeEvents := [] } year fuel st).drop
            (ev.year - year + 1)).map (fun row => row.monthlyExpenses + ev.amount / 12)) := by
  intro fuel
  induction fuel with
  | zero =>
    intro year st _
    exact ⟨rfl, rfl⟩
  | succ n ih =>
    intro year st hle
    rcases eq_or_lt_of_le hle with heq | hlt
    · -- the event fires this year
      obtain ⟨hrow, hincSt, hongSt⟩ := simYear_ongoing_at P ev year st heq.symm hty
      have hidx : ev.year - year = 0 := by omega
      rw [hidx]
      refine ⟨?_, ?_⟩
      · simp only [simAux, zero_add, List.take_succ_cons, List.take_zero, hrow]
      · simp only [simAux, zero_add, List.drop_succ_cons, List.drop_zero]
        exact simAux_expenses_shift P ev (ev.amount / 12) n (year + 1)
          (simYear { P with lifeEvents := [ev] } year st).2
          (simYear { P with lifeEvents := [] } year st).2
          (by omega) hincSt hongSt
    · -- the event is still in the future
      have hskip := simYear_skip P ev year st (by omega)
      obtain ⟨ih1, ih2⟩ :=
        ih (year + 1) (simYear { P with lifeEvents := [] } year st).2 (by omega)
      have hsucc : ev.year - year + 1 = ((ev.year - (year + 1)) + 1) + 1 := by omega
      rw [hsucc]
      refine ⟨?_, ?_⟩
      · simp only [simAux, List.take_succ_cons, hskip]
        rw [ih1]
      · simp only [simAux, List.drop_succ_cons, hskip]
        exact ih2

/-- Scenario for concrete life-event runs: loan term 0 (no equity series),
total monthly housing cost 5, everything else 0. -/
def ceScenario : Scenario :=
  { propertyInfo :=
      { purchasePrice := 0, downPaymentAmount := 0, interestRate := 0, loanTerm := 0 },
    incomeInfo := { annualIncome := 0, currentPortfolio := 0 },
    calculations := { totalMonthlyCost := 5, loanAmount := 0 } }

/-- C2 counterexample: (a) an ongoing 12/year event in year 1 leaves year 1's
recorded monthlyExpenses at the baseline 5 — the claimed raise to 6 only
appears from year 2 on, because the adjustment is applied after that year's
expenses are computed; (b) a one-time expense of 7 in year 1 on a portfolio
that grows to 0 leaves the recorded portfolio at 0 (floored), not reduced by
the full 7. -/
theorem c2_counterexample :
    ((calculateYearByYearFinancials ceScenario 2 0 0 0
        [{ year := 1, description := "", type := LifeEventType.ongoing, amount := 12 }]
        0 0 []).yearlyData.map YearlyRecord.monthlyExpenses) = [5, 6]
    ∧ ((calculateYearByYearFinancials ceScenario 2 0 0 0 [] 0 0 []).yearlyData.map
        YearlyRecord.monthlyExpenses) = [5, 5]
    ∧ ((calculateYearByYearFinancials ceScenario 1 0 0 0
        [{ year := 1, description := "", type := LifeEventType.oneTime, amount := 7 }]
        0 0 []).yearlyData.map YearlyRecord.portfolio) = [0] := by
  refine ⟨?_, ?_, ?_⟩ <;>
    norm_num [calculateYearByYearFinancials, simAux, simYear, lifeEventsFold,
      calculateEquityOverTime, equityAux, List.range_succ, ceScenario]

/-- C2 amended: comparing the simulator run with a single life event `ev`
(year ≥ 1, amount ≥ 0) against the event-free run: a one-time event leaves
every recorded monthlyExpenses unchanged and the records of years before
`ev.year` unchanged, and in `ev.year` records the event amount as
oneTimeExpense and the event-free portfolio reduced by the amount, floored at
0; an ongoing event leaves the records of years 1 through `ev.year` unchanged
(including year `ev.year` itself) and raises recorded monthlyExpenses by
amount/12 for every year strictly after `ev.year`, never reverting. -/
theorem c2_life_events (sc : Scenario) (years : ℕ)
    (annualRaise baseExpenses savingsRate investmentReturn appreciationRate : ℚ)
    (incomeAdjustments : List IncomeAdjustment) (ev : LifeEvent)
    (hy : 1 ≤ ev.year) (ham : 0 ≤ ev.amount) :
    (ev.type = LifeEventType.oneTime →
      ((calculateYearByYearFinancials sc years annualRaise baseExpenses savingsRate
          [ev] investmentReturn appreciationRate incomeAdjustments).yearlyData.map
            YearlyRecord.monthlyExpenses
        = (calculateYearByYearFinancials sc years annualRaise baseExpenses savingsRate
            [] investmentReturn appreciationRate incomeAdjustments).yearlyData.map
              YearlyRecord.monthlyExpenses)
      ∧ ((calculateYearByYearFinancials sc years annualRaise baseExpenses savingsRate
            [ev] investmentReturn appreciationRate incomeAdjustments).yearlyData.take
              (ev.year - 1)
        = (calculateYearByYearFinancials sc years annualRaise baseExpenses savingsRate
            [] investmentReturn appreciationRate incomeAdjustments).yearlyData.take
              (ev.year - 1))
      ∧ (∀ rA rB,
          (calculateYearByYearFinancials sc years annualRaise baseExpenses savingsRate
            [ev] investmentReturn appreciationRate
            incomeAdjustments).yearlyData[ev.year - 1]? = some rA →
          (calculateYearByYearFinancials sc years annualRaise baseExpenses savingsRate
            [] investmentReturn appreciationRate
            incomeAdjustments).yearlyData[ev.year - 1]? = some rB →
          rA.portfolio = max 0 (rB.portfolio - ev.amount)
            ∧ rA.oneTimeExpense = ev.amount))
    ∧ (ev.type = LifeEventType.ongoing →
      ((calculateYearByYearFinancials sc years annualRaise baseExpenses savingsRate
          [ev] investmentReturn appreciationRate incomeAdjustments).yearlyData.take
            ev.year
        = (calculateYearByYearFinancials sc years annualRaise baseExpenses savingsRate
            [] investmentReturn appreciationRate incomeAdjustments).yearlyData.take
              ev.year)
      ∧ (((calculateYearByYearFinancials sc years annualRaise baseExpenses savingsRate
            [ev] investmentReturn appreciationRate incomeAdjustments).yearlyData.drop
              ev.year).map YearlyRecord.monthlyExpenses
        = ((calculateYearByYearFinancials sc years annualRaise baseExpenses savingsRate
            [] investmentReturn appreciationRate incomeAdjustments).yearlyData.drop
              ev.year).map (fun row => row.monthlyExpenses + ev.amount / 12))) := by
  constructor
  · intro hty
    obtain ⟨h1, h2, h3⟩ := simAux_oneTime_effect
      { annualRaise := annualRaise, baseExpenses := baseExpenses,
        savingsRate := savingsRate, investmentReturn := investmentReturn,
        monthlyHousing := sc.calculations.totalMonthlyCost,
        incomeAdjustments := incomeAdjustments,
        equityData := calculateEquityOverTime sc.propertyInfo.purchasePrice
          sc.calculations.loanAmount sc.propertyInfo.interestRate
          (min years sc.propertyInfo.loanTerm) appreciationRate,
        lifeEvents := [] }
      ev hty ham years 1
      { currentIncome := sc.incomeInfo.annualIncome,
        portfolio := max 0 (sc.incomeInfo.currentPortfolio
          - sc.propertyInfo.downPaymentAmount),
        ongoingExpenseAdjustment := 0 }
      hy
    exact ⟨h1, h2, h3⟩
  · intro hty
    obtain ⟨g1, g2⟩ := simAux_ongoing_effect
      { annualRaise := annualRaise, baseExpenses := baseExpenses,
        savingsRate := savingsRate, investmentReturn := investmentReturn,
        monthlyHousing := sc.calculations.totalMonthlyCost,
        incomeAdjustments := incomeAdjustments,
        equityData := calculateEquityOverTime sc.propertyInfo.purchasePrice
          sc.calculations.loanAmount sc.propertyInfo.interestRate
          (min years sc.propertyInfo.loanTerm) appreciationRate,
        lifeEvents := [] }
      ev hty years 1
      { currentIncome := sc.incomeInfo.annualIncome,
        portfolio := max 0 (sc.incomeInfo.currentPortfolio
          - sc.propertyInfo.downPaymentAmount),
        ongoingExpenseAdjustment := 0 }
      hy
    rw [show ev.year - 1 + 1 = ev.year from by omega] at g1 g2
    exact ⟨g1, g2⟩

/-- C2 witness: for the concrete ongoing event of 12/year in year 1 over a
2-year horizon, the recorded monthlyExpenses after year 1 are the event-free
ones plus 12/12. -/
theorem c2_witness :
    ((calculateYearByYearFinancials ceScenario 2 0 0 0
        [{ year := 1, description := "", type := LifeEventType.ongoing, amount := 12 }]
        0 0 []).yearlyData.drop 1).map YearlyRecord.monthlyExpenses
      = ((calculateYearByYearFinancials ceScenario 2 0 0 0 [] 0 0 []).yearlyData.drop
          1).map (fun row => row.monthlyExpenses + 12 / 12) :=
  ((c2_life_events ceScenario 2 0 0 0 0 0 []
      { year := 1, description := "", type := LifeEventType.ongoing, amount := 12 }
      (by decide) (by decide)).2 rfl).2

end HomePurchase
